import Mathlib

/-
  Verification development for the ProductAnalyzer repository.

  The definitions below are a shallow embedding of the report input
  normalization and persistence pipeline:
    - src/unnamed/part_001 : preprocessReportData middleware and the
      registerRoutes POST handlers (save route, analyze route variants);
    - src/shared/schema.ts : productInputSchema (zod validation);
    - src/server/routes.ts : registerRoutes (POST api analyze handler);
    - src/server/storage.ts : uploadReportImage, SupabaseStorage
      (createReport payload encoding, deleteReport).

  JavaScript runtime values are modelled by the inductive JVal below.
  JSON numbers are modelled exactly as scaled decimal integers
  (mantissa and a power-of-ten exponent); hexadecimal and Infinity
  forms of the Number() coercion are outside the model (no claim
  depends on them).  JSON.parse is modelled by an executable
  recursive-descent parser for the JSON grammar.
-/

/-- A JavaScript runtime value as it can appear in a request body.
A JSON number m * 10 ^ e is kept exactly as the pair (m, e). -/
inductive JVal where
  | null : JVal
  | bool (b : Bool) : JVal
  | num (m : Int) (e : Int) : JVal
  | str (s : String) : JVal
  | arr (xs : List JVal) : JVal
  | obj (kvs : List (String × JVal)) : JVal

/-- JavaScript truthiness of a value (undefined is handled by Option at
use sites). -/
def jsTruthy : JVal → Bool
  | .null => false
  | .bool b => b
  | .num m _ => m != 0
  | .str s => s != ""
  | .arr _ => true
  | .obj _ => true

/-- Lookup of a key in a JavaScript object (keys are unique after
canonicalization, first match wins). -/
def objGet (kvs : List (String × JVal)) (k : String) : Option JVal :=
  (kvs.find? (fun p => p.1 == k)).map (fun p => p.2)

/-- Property assignment on a JavaScript object: an existing key keeps its
position and takes the new value, a new key is appended. -/
def objInsert (kvs : List (String × JVal)) (k : String) (v : JVal) :
    List (String × JVal) :=
  if (kvs.find? (fun p => p.1 == k)).isSome then
    kvs.map (fun p => if p.1 == k then (k, v) else p)
  else
    kvs ++ [(k, v)]

/-- JSON whitespace skipping (space, tab, line feed, carriage return),
as in the JSON grammar used by JSON.parse. -/
def skipWs : List Char → List Char
  | [] => []
  | c :: cs =>
    if c = ' ' ∨ c = '\t' ∨ c = '\n' ∨ c = '\r' then skipWs cs else c :: cs

/-- Value of a hexadecimal digit, if the character is one. -/
def hexVal (c : Char) : Option Nat :=
  if '0' ≤ c ∧ c ≤ '9' then some (c.toNat - '0'.toNat)
  else if 'a' ≤ c ∧ c ≤ 'f' then some (c.toNat - 'a'.toNat + 10)
  else if 'A' ≤ c ∧ c ≤ 'F' then some (c.toNat - 'A'.toNat + 10)
  else none

/-- Character for a \uXXXX escape; code points that are not valid
scalar values fall back to the default character. -/
def charOfCode (n : Nat) : Char :=
  Char.ofNat n

/-- Body of a JSON string literal after the opening quote: returns the
decoded characters and the input after the closing quote.  Escapes and
the ban on raw control characters follow the JSON grammar. -/
def parseStringBody : List Char → Option (List Char × List Char)
  | [] => none
  | '"' :: rest => some ([], rest)
  | '\\' :: esc =>
    match esc with
    | '"' :: rest => (parseStringBody rest).map (fun p => ('"' :: p.1, p.2))
    | '\\' :: rest => (parseStringBody rest).map (fun p => ('\\' :: p.1, p.2))
    | '/' :: rest => (parseStringBody rest).map (fun p => ('/' :: p.1, p.2))
    | 'b' :: rest => (parseStringBody rest).map (fun p => ('\x08' :: p.1, p.2))
    | 'f' :: rest => (parseStringBody rest).map (fun p => ('\x0c' :: p.1, p.2))
    | 'n' :: rest => (parseStringBody rest).map (fun p => ('\n' :: p.1, p.2))
    | 'r' :: rest => (parseStringBody rest).map (fun p => ('\r' :: p.1, p.2))
    | 't' :: rest => (parseStringBody rest).map (fun p => ('\t' :: p.1, p.2))
    | 'u' :: a :: b :: c :: d :: rest =>
      match hexVal a, hexVal b, hexVal c, hexVal d with
      | some ha, some hb, some hc, some hd =>
        (parseStringBody rest).map
          (fun p => (charOfCode (((ha * 16 + hb) * 16 + hc) * 16 + hd) :: p.1, p.2))
      | _, _, _, _ => none
    | _ => none
  | c :: rest =>
    if c.toNat < 0x20 then none
    else (parseStringBody rest).map (fun p => (c :: p.1, p.2))

/-- One or more decimal digits from the front of the input. -/
def parseDigits : List Char → Option (List Char × List Char)
  | [] => none
  | c :: cs =>
    if c.isDigit then
      match parseDigits cs with
      | some (ds, rest) => some (c :: ds, rest)
      | none => some ([c], cs)
    else none

/-- Natural number denoted by a digit string. -/
def digitsToNat (ds : List Char) : Nat :=
  ds.foldl (fun acc c => acc * 10 + (c.toNat - '0'.toNat)) 0

/-- JSON number grammar after an optional leading minus sign: int part
(0, or a nonzero digit followed by digits), optional fraction, optional
exponent.  Returns mantissa and power-of-ten exponent. -/
def parseNumTail (neg : Bool) (cs : List Char) : Option ((Int × Int) × List Char) :=
  match parseDigits cs with
  | none => none
  | some (intDs, rest1) =>
    -- JSON forbids leading zeros: the int part is 0 or starts nonzero
    if intDs.length > 1 ∧ intDs.headD '0' = '0' then none
    else
      let (fracDs, rest2) :=
        match rest1 with
        | '.' :: afterDot =>
          match parseDigits afterDot with
          | some (ds, r) => (ds, some r)
          | none => ([], none)
        | _ => ([], some rest1)
      match rest2 with
      | none => none
      | some rest2 =>
        let mantNat := digitsToNat (intDs ++ fracDs)
        let mant : Int := if neg then -(mantNat : Int) else (mantNat : Int)
        let baseExp : Int := -(fracDs.length : Int)
        match rest2 with
        | 'e' :: afterE =>
          match parseExpPart afterE with
          | some (ex, r) => some ((mant, baseExp + ex), r)
          | none => none
        | 'E' :: afterE =>
          match parseExpPart afterE with
          | some (ex, r) => some ((mant, baseExp + ex), r)
          | none => none
        | _ => some ((mant, baseExp), rest2)
where
  parseExpPart (cs : List Char) : Option (Int × List Char) :=
    match cs with
    | '+' :: cs' => (parseDigits cs').map (fun p => ((digitsToNat p.1 : Int), p.2))
    | '-' :: cs' => (parseDigits cs').map (fun p => (-(digitsToNat p.1 : Int), p.2))
    | _ => (parseDigits cs).map (fun p => ((digitsToNat p.1 : Int), p.2))

/-- JSON number parser (with the optional leading minus sign). -/
def parseNumber : List Char → Option ((Int × Int) × List Char)
  | '-' :: cs => parseNumTail true cs
  | cs => parseNumTail false cs

mutual

/-- Recursive-descent parser for a JSON value, fuelled for termination.
Mirrors the grammar accepted by the JavaScript builtin JSON.parse. -/
def parseJVal : Nat → List Char → Option (JVal × List Char)
  | 0, _ => none
  | fuel + 1, cs =>
    match skipWs cs with
    | [] => none
    | 'n' :: 'u' :: 'l' :: 'l' :: rest => some (.null, rest)
    | 't' :: 'r' :: 'u' :: 'e' :: rest => some (.bool true, rest)
    | 'f' :: 'a' :: 'l' :: 's' :: 'e' :: rest => some (.bool false, rest)
    | '"' :: rest =>
      (parseStringBody rest).map (fun p => (.str (String.mk p.1), p.2))
    | '[' :: rest =>
      (match skipWs rest with
       | ']' :: rest' => some (.arr [], rest')
       | _ =>
         match parseArrTail fuel rest with
         | some (xs, rest') => some (.arr xs, rest')
         | none => none)
    | '{' :: rest =>
      (match skipWs rest with
       | '}' :: rest' => some (.obj [], rest')
       | _ =>
         match parseObjTail fuel rest with
         | some (kvs, rest') =>
           -- later bindings of a repeated key overwrite earlier ones,
           -- keeping the position of the first occurrence, as in JS
           some (.obj (kvs.foldl (fun acc p => objInsert acc p.1 p.2) []), rest')
         | none => none)
    | other => (parseNumber other).map (fun p => (.num p.1.1 p.1.2, p.2))

/-- Elements of a nonempty JSON array after the opening bracket. -/
def parseArrTail : Nat → List Char → Option (List JVal × List Char)
  | 0, _ => none
  | fuel + 1, cs =>
    match parseJVal fuel cs with
    | none => none
    | some (v, rest) =>
      match skipWs rest with
      | ',' :: rest' =>
        match parseArrTail fuel rest' with
        | some (xs, rest'') => some (v :: xs, rest'')
        | none => none
      | ']' :: rest' => some ([v], rest')
      | _ => none

/-- Members of a nonempty JSON object after the opening brace, in
source order (duplicate keys are collapsed by the caller). -/
def parseObjTail : Nat → List Char → Option (List (String × JVal) × List Char)
  | 0, _ => none
  | fuel + 1, cs =>
    match skipWs cs with
    | '"' :: rest =>
      match parseStringBody rest with
      | none => none
      | some (kcs, rest1) =>
        match skipWs rest1 with
        | ':' :: rest2 =>
          match parseJVal fuel rest2 with
          | none => none
          | some (v, rest3) =>
            match skipWs rest3 with
            | ',' :: rest4 =>
              match parseObjTail fuel rest4 with
              | some (kvs, rest5) => some ((String.mk kcs, v) :: kvs, rest5)
              | none => none
            | '}' :: rest4 => some ([(String.mk kcs, v)], rest4)
            | _ => none
        | _ => none
    | _ => none

end

/-- The JavaScript builtin JSON.parse, returning none where the builtin
throws a SyntaxError: the whole input must be one JSON value surrounded
only by whitespace. -/
def jsonParse (s : String) : Option JVal :=
  match parseJVal (2 * s.length + 2) s.data with
  | some (v, rest) => if skipWs rest = [] then some v else none
  | none => none

/-- Whitespace test for the String.prototype trim and split models. -/
def isWsChar (c : Char) : Bool :=
  c = ' ' ∨ c = '\t' ∨ c = '\n' ∨ c = '\r' ∨ c = '\x0b' ∨ c = '\x0c'

/-- The String.prototype.trim method (structural model). -/
def jsTrim (s : String) : String :=
  String.mk (((s.data.dropWhile isWsChar).reverse.dropWhile isWsChar).reverse)

/-- Splitting a character list at every occurrence of a separator
character; the result is never empty, matching String.prototype.split
with a one-character separator. -/
def splitCharsOn (sep : Char) : List Char → List (List Char)
  | [] => [[]]
  | c :: cs =>
    match splitCharsOn sep cs with
    | [] => [[]]
    | piece :: rest =>
      if c = sep then [] :: piece :: rest else (c :: piece) :: rest

/-- The String.prototype.split method with a one-character separator. -/
def jsSplit (s : String) (sep : Char) : List String :=
  (splitCharsOn sep s.data).map String.mk

/-- The Array.prototype.join model: pieces joined by a separator
(structural). -/
def joinSep (sep : String) : List String → String
  | [] => ""
  | [x] => x
  | x :: xs => x ++ sep ++ joinSep sep xs


/-- Strip trailing zeros of a scaled decimal while the exponent is
negative, so that the rendering matches the canonical JavaScript
formatting of the number (String(1.50) is the string 1.5). -/
def canonDec : Nat → Int × Int → Int × Int
  | 0, p => p
  | fuel + 1, (m, e) =>
    if e < 0 ∧ m % 10 = 0 ∧ m ≠ 0 then canonDec fuel (m / 10, e + 1) else (m, e)

/-- Decimal rendering of a scaled decimal integer m * 10 ^ e in the
style of the JavaScript String() conversion of a number (exponent
notation for very large magnitudes is outside the model). -/
def decToString (m0 : Int) (e0 : Int) : String :=
  let p := canonDec (Int.natAbs e0) (m0, e0)
  let m := p.1
  let e := p.2
  if m = 0 then "0"
  else if 0 ≤ e then
    toString m ++ String.mk (List.replicate e.toNat '0')
  else
    let k := e.natAbs
    let digits := (toString m.natAbs).data
    let padded :=
      if digits.length ≤ k then
        List.replicate (k + 1 - digits.length) '0' ++ digits
      else digits
    let cut := padded.length - k
    (if m < 0 then "-" else "") ++
      (String.mk (padded.take cut) ++ "." ++ String.mk (padded.drop cut))

mutual

/-- The JavaScript String() conversion of a runtime value (undefined is
handled at use sites; an array stringifies by joining its members with
commas, null members joining as empty). -/
def jsToString : JVal → String
  | .null => "null"
  | .bool true => "true"
  | .bool false => "false"
  | .num m e => decToString m e
  | .str s => s
  | .arr xs => joinSep "," (jsToStringList xs)
  | .obj _ => "[object Object]"

/-- Member strings for the array join of the String() conversion. -/
def jsToStringList : List JVal → List String
  | [] => []
  | x :: xs =>
    (match x with
     | .null => ""
     | v => jsToString v) :: jsToStringList xs

end

/-- The JavaScript Number() coercion of a string: whitespace-only input
is zero, otherwise an optional sign and a decimal literal with optional
fraction and exponent; anything else is NaN (none).  Hexadecimal and
Infinity forms are outside the model (no claim depends on them). -/
def jsNumberOfString (s : String) : Option (Int × Int) :=
  let cs := skipWs s.data
  match cs with
  | [] => some (0, 0)
  | _ =>
    let (neg, cs1) :=
      match cs with
      | '-' :: rest => (true, rest)
      | '+' :: rest => (false, rest)
      | _ => (false, cs)
    match parseJsDecimal cs1 with
    | some (p, rest) =>
      if skipWs rest = [] then some (if neg then (-p.1, p.2) else p) else none
    | none => none
where
  /- A JavaScript decimal literal: digits, digits.digits, or .digits,
  with an optional exponent part. -/
  parseJsDecimal (cs : List Char) : Option ((Int × Int) × List Char) :=
    let core : Option ((Int × Int) × List Char) :=
      match parseDigits cs with
      | some (intDs, rest1) =>
        (match rest1 with
         | '.' :: afterDot =>
           (match parseDigits afterDot with
            | some (fracDs, rest2) =>
              some (((digitsToNat (intDs ++ fracDs) : Int),
                     -(fracDs.length : Int)), rest2)
            | none => some (((digitsToNat intDs : Int), 0), afterDot))
         | _ => some (((digitsToNat intDs : Int), 0), rest1))
      | none =>
        match cs with
        | '.' :: afterDot =>
          (match parseDigits afterDot with
           | some (fracDs, rest2) =>
             some (((digitsToNat fracDs : Int), -(fracDs.length : Int)), rest2)
           | none => none)
        | _ => none
    match core with
    | none => none
    | some (p, rest) =>
      match rest with
      | 'e' :: afterE =>
        (match parseExp afterE with
         | some (ex, rest2) => some ((p.1, p.2 + ex), rest2)
         | none => none)
      | 'E' :: afterE =>
        (match parseExp afterE with
         | some (ex, rest2) => some ((p.1, p.2 + ex), rest2)
         | none => none)
      | _ => some (p, rest)
  parseExp (cs : List Char) : Option (Int × List Char) :=
    match cs with
    | '+' :: cs' => (parseDigits cs').map (fun p => ((digitsToNat p.1 : Int), p.2))
    | '-' :: cs' => (parseDigits cs').map (fun p => (-(digitsToNat p.1 : Int), p.2))
    | _ => (parseDigits cs).map (fun p => ((digitsToNat p.1 : Int), p.2))

/-- A request body as the handlers see it: each known field is either
absent (undefined) or holds a JavaScript value. -/
structure Body where
  productName : Option JVal := none
  productCategory : Option JVal := none
  productImage : Option JVal := none
  oneSentencePitch : Option JVal := none
  keyFeatures : Option JVal := none
  costOfGoods : Option JVal := none
  retailPrice : Option JVal := none
  promoPrice : Option JVal := none
  materials : Option JVal := none
  variants : Option JVal := none
  targetAudience : Option JVal := none
  competitors : Option JVal := none
  salesChannels : Option JVal := none
  analysis : Option JVal := none
  productData : Option JVal := none

/-- Comma splitting of a string with trimming and dropping of empty
pieces, the fallback of the salesChannels normalization
(src/unnamed/part_001 line 37). -/
def commaSplitClean (s : String) : List String :=
  ((jsSplit s ',').map jsTrim).filter (fun t => t ≠ "")

/-- One array element of the salesChannels normalization
(src/unnamed/part_001 lines 17 to 29): a string element is tried as
JSON; an element that decodes to an array is spliced in place (one
level); any other element, and any decoding failure, keeps the element
itself. -/
def flatChannel (c : JVal) : List JVal :=
  match c with
  | .str s =>
    (match jsonParse s with
     | some v =>
       (match v with
        | .arr ys => ys
        | _ => [c])
     | none => [c])
  | _ => [c]

/-- The flatMap over array elements of the salesChannels normalization. -/
def normalizeChannelsArray : List JVal → List JVal
  | [] => []
  | c :: cs => flatChannel c ++ normalizeChannelsArray cs

/-- The salesChannels branch of preprocessReportData
(src/unnamed/part_001 lines 13 to 44): an absent or null field becomes
the empty array; an array is flatMapped through flatChannel; a string
is JSON parsed, falling back to comma splitting; anything else becomes
the empty array. -/
def preprocessChannels (v : Option JVal) : JVal :=
  match v with
  | none => .arr []
  | some .null => .arr []
  | some (.arr xs) => .arr (normalizeChannelsArray xs)
  | some (.str s) =>
    (match jsonParse s with
     | some v' => v'
     | none => .arr ((commaSplitClean s).map .str))
  | some _ => .arr []

/-- The numeric field conversion shared by preprocessReportData
(src/unnamed/part_001 lines 5 to 11) and the handler
(lines 173 to 178): a present, non-null, non-empty-string value is
replaced by its String() conversion. -/
def numericFieldToString (v : Option JVal) : Option JVal :=
  match v with
  | none => none
  | some .null => some .null
  | some (.str s) => some (.str s)
  | some w => some (.str (jsToString w))

/-- The numeric field loop applied to costOfGoods, retailPrice and
promoPrice. -/
def numericFieldsToString (b : Body) : Body :=
  { b with
    costOfGoods := numericFieldToString b.costOfGoods
    retailPrice := numericFieldToString b.retailPrice
    promoPrice := numericFieldToString b.promoPrice }

/-- The preprocessReportData middleware (src/unnamed/part_001 lines 3
to 47): numeric fields are stringified and salesChannels is reshaped. -/
def preprocessReportData (b : Body) : Body :=
  let b1 := numericFieldsToString b
  { b1 with salesChannels := some (preprocessChannels b1.salesChannels) }

/-- Overwrite a field of the body when the productData object carries
the key (Object.assign copies only present keys). -/
def assignField (kvs : List (String × JVal)) (k : String) (cur : Option JVal) :
    Option JVal :=
  match objGet kvs k with
  | some w => some w
  | none => cur

/-- The nested productData flattening of the save handler
(src/unnamed/part_001 lines 124 to 128): a truthy productData object is
Object.assigned over the body and the wrapper key is discarded. -/
def mergeProductData (b : Body) : Body :=
  match b.productData with
  | some v =>
    if jsTruthy v then
      match v with
      | .obj kvs =>
        { productName := assignField kvs "productName" b.productName
          productCategory := assignField kvs "productCategory" b.productCategory
          productImage := assignField kvs "productImage" b.productImage
          oneSentencePitch := assignField kvs "oneSentencePitch" b.oneSentencePitch
          keyFeatures := assignField kvs "keyFeatures" b.keyFeatures
          costOfGoods := assignField kvs "costOfGoods" b.costOfGoods
          retailPrice := assignField kvs "retailPrice" b.retailPrice
          promoPrice := assignField kvs "promoPrice" b.promoPrice
          materials := assignField kvs "materials" b.materials
          variants := assignField kvs "variants" b.variants
          targetAudience := assignField kvs "targetAudience" b.targetAudience
          competitors := assignField kvs "competitors" b.competitors
          salesChannels := assignField kvs "salesChannels" b.salesChannels
          analysis := assignField kvs "analysis" b.analysis
          productData := none }
      | _ => { b with productData := none }
    else b
  | none => b

/-- The object-to-array rewrite of salesChannels in the save handler
(src/unnamed/part_001 lines 131 to 133): a truthy non-array object is
replaced by the list of its values. -/
def channelsObjToArr (b : Body) : Body :=
  match b.salesChannels with
  | some (.obj kvs) => { b with salesChannels := some (.arr (kvs.map (fun p => p.2))) }
  | _ => b

/-- Substring test in the style of String.prototype.includes. -/
def containsStr (s pat : String) : Bool :=
  containsList s.data pat.data
where
  containsList : List Char → List Char → Bool
  | s, pat =>
    if pat.isPrefixOf s then true
    else
      match s with
      | [] => false
      | _ :: t => containsList t pat

/-- The trimmed first line of a string. -/
def firstLineTrim (s : String) : String :=
  jsTrim ((jsSplit s '\n').headD "")

/-- The per-field cleanup of the save handler (src/unnamed/part_001
lines 136 to 145): a truthy string field is replaced by its trimmed
first line, unless that line is empty or contains one of the two debug
marker tokens, in which case the field is left untouched. -/
def cleanTextField (v : Option JVal) : Option JVal :=
  match v with
  | some (.str s) =>
    if s = "" then v
    else
      let c := firstLineTrim s
      if c ≠ "" ∧ containsStr c "AM [express]" = false ∧ containsStr c "DEBUG" = false then
        some (.str c)
      else v
  | _ => v

/-- The fieldsToClean loop of the save handler, applied to the fixed
allow-list: materials, variants, targetAudience, competitors. -/
def cleanBodyFields (b : Body) : Body :=
  { b with
    materials := cleanTextField b.materials
    variants := cleanTextField b.variants
    targetAudience := cleanTextField b.targetAudience
    competitors := cleanTextField b.competitors }

/-- The salesChannels string patch of the save handler
(src/unnamed/part_001 lines 148 to 154): a string is JSON parsed,
falling back to the empty array. -/
def channelsStringPatch (b : Body) : Body :=
  match b.salesChannels with
  | some (.str s) =>
    { b with salesChannels := some ((jsonParse s).getD (.arr [])) }
  | _ => b

/-- Empty string to undefined (src/unnamed/part_001 lines 157 to 170),
applied to the eight listed fields. -/
def emptyToUndef (v : Option JVal) : Option JVal :=
  match v with
  | some (.str s) => if s = "" then none else v
  | _ => v

/-- The required-fields loop converting empty strings to undefined. -/
def emptyRequiredToUndefined (b : Body) : Body :=
  { b with
    productName := emptyToUndef b.productName
    productCategory := emptyToUndef b.productCategory
    oneSentencePitch := emptyToUndef b.oneSentencePitch
    keyFeatures := emptyToUndef b.keyFeatures
    materials := emptyToUndef b.materials
    variants := emptyToUndef b.variants
    targetAudience := emptyToUndef b.targetAudience
    competitors := emptyToUndef b.competitors }

/-- The body as the save handler sees it at validation time: multer
body, preprocessReportData middleware, then the in-handler munging in
source order (src/unnamed/part_001 lines 117 to 178). -/
def mungedBody (b : Body) : Body :=
  numericFieldsToString
    (emptyRequiredToUndefined
      (channelsStringPatch
        (cleanBodyFields
          (channelsObjToArr
            (mergeProductData
              (preprocessReportData b))))))

/-- The canonical validated product input (src/shared/schema.ts,
productInputSchema output type). -/
structure ProductInput where
  productName : String
  productCategory : String
  productImage : Option String
  oneSentencePitch : String
  keyFeatures : String
  costOfGoods : String
  retailPrice : String
  promoPrice : Option String
  materials : String
  variants : Option String
  targetAudience : String
  competitors : String
  salesChannels : List String

/-- Issues of a required string field of the zod schema: absence is a
Required issue, a non-string is an invalid-type issue, the min(1) bound
carries the custom message of the schema. -/
def checkRequiredString (name msg : String) (v : Option JVal) :
    List (String × String) :=
  match v with
  | none => [(name, "Required")]
  | some (.str s) => if s.length ≥ 1 then [] else [(name, msg)]
  | some _ => [(name, "Expected string")]

/-- Issues of an optional string field of the zod schema. -/
def checkOptionalString (name : String) (v : Option JVal) :
    List (String × String) :=
  match v with
  | none => []
  | some (.str _) => []
  | some _ => [(name, "Expected string")]

/-- Per-element issues of the salesChannels array: each non-string
element contributes one invalid-type issue. -/
def channelElemIssues : List JVal → List (String × String)
  | [] => []
  | x :: xs =>
    (match x with
     | .str _ => []
     | _ => [("salesChannels", "Expected string")]) ++ channelElemIssues xs

/-- Issues of the salesChannels field: a non-empty array whose elements
are all strings (src/shared/schema.ts line 42). -/
def checkChannels (v : Option JVal) : List (String × String) :=
  match v with
  | none => [("salesChannels", "Required")]
  | some (.arr xs) =>
    (if xs.length ≥ 1 then []
     else [("salesChannels", "At least one sales channel is required")]) ++
    channelElemIssues xs
  | some _ => [("salesChannels", "Expected array")]

/-- All issues of productInputSchema.safeParse on a body, in schema
definition order (src/shared/schema.ts lines 29 to 43). -/
def validationIssues (b : Body) : List (String × String) :=
  checkRequiredString "productName" "Product name is required" b.productName ++
  checkRequiredString "productCategory" "Product category is required" b.productCategory ++
  checkOptionalString "productImage" b.productImage ++
  checkRequiredString "oneSentencePitch" "One sentence pitch is required" b.oneSentencePitch ++
  checkRequiredString "keyFeatures" "Key features are required" b.keyFeatures ++
  checkRequiredString "costOfGoods" "Cost of goods is required" b.costOfGoods ++
  checkRequiredString "retailPrice" "Retail price is required" b.retailPrice ++
  checkOptionalString "promoPrice" b.promoPrice ++
  checkRequiredString "materials" "Materials are required" b.materials ++
  checkOptionalString "variants" b.variants ++
  checkRequiredString "targetAudience" "Target audience is required" b.targetAudience ++
  checkRequiredString "competitors" "Competitors are required" b.competitors ++
  checkChannels b.salesChannels

/-- String content of a field known to be a string. -/
def strOf (v : Option JVal) : String :=
  match v with
  | some (.str s) => s
  | _ => ""

/-- Optional string content of a field. -/
def optStrOf (v : Option JVal) : Option String :=
  match v with
  | some (.str s) => some s
  | _ => none

/-- String elements of a field known to be an array of strings. -/
def strListOf (v : Option JVal) : List String :=
  match v with
  | some (.arr xs) =>
    xs.foldr (fun x acc => (match x with | .str s => s :: acc | _ => acc)) []
  | _ => []

/-- productInputSchema.safeParse: success carries the validated record,
failure carries the per-field issue list. -/
def validate (b : Body) : Except (List (String × String)) ProductInput :=
  match validationIssues b with
  | [] =>
    .ok
      { productName := strOf b.productName
        productCategory := strOf b.productCategory
        productImage := optStrOf b.productImage
        oneSentencePitch := strOf b.oneSentencePitch
        keyFeatures := strOf b.keyFeatures
        costOfGoods := strOf b.costOfGoods
        retailPrice := strOf b.retailPrice
        promoPrice := optStrOf b.promoPrice
        materials := strOf b.materials
        variants := optStrOf b.variants
        targetAudience := strOf b.targetAudience
        competitors := strOf b.competitors
        salesChannels := strListOf b.salesChannels }
  | issues => .error issues

/-- Response sent by a handler: HTTP status, the message string of the
JSON body, and the validation issues when the body carries them. -/
structure Resp where
  status : Nat
  tag : String
  issues : List (String × String) := []

/-- The record the save handler passes to storage.createReport
(src/unnamed/part_001 lines 232 to 239). -/
structure InsertReport where
  productName : String
  productCategory : String
  productImage : Option String
  oneSentencePitch : String
  keyFeatures : String
  materials : String
  variants : Option String
  targetAudience : String
  competitors : String
  salesChannels : List String
  analysis : JVal
  costOfGoods : Option (Int × Int)
  retailPrice : Option (Int × Int)
  promoPrice : Option (Int × Int)

/-- External calls a handler can make, in order. -/
inductive Call where
  | uploadImage : Call
  | createReport (payload : InsertReport) : Call
  | aiAnalyze : Call
  | aiAnalyzeImage : Call

/-- uploadReportImage (src/server/storage.ts lines 1 to 36), abstracted
over the storage backend: uploadRes is the path on upload success (none
where the backend errored or returned no data), publicUrl is the public
URL lookup result.  A missing or empty public URL is an error. -/
def uploadReportImage (uploadRes : Option String) (publicUrl : Option String) :
    Except String String :=
  match uploadRes with
  | none => .error "Failed to upload image"
  | some _ =>
    match publicUrl with
    | none => .error "Failed to get public URL for uploaded image"
    | some u =>
      if u = "" then .error "Failed to get public URL for uploaded image"
      else .ok u

/-- The JavaScript expression x or-else null on an optional string: an
absent or empty string becomes null. -/
def jsOrNull (u : Option String) : Option String :=
  match u with
  | none => none
  | some s => if s = "" then none else some s

/-- The JavaScript expression Number(x) or-else null on an optional
string: an absent value (NaN), an unparseable value (NaN) and zero all
become null. -/
def numOrNull (v : Option String) : Option (Int × Int) :=
  match v with
  | none => none
  | some s =>
    match jsNumberOfString s with
    | none => none
    | some (m, e) => if m = 0 then none else some (m, e)

/-- The analysis parsing step of the save handler (src/unnamed/part_001
lines 196 to 217): a falsy or absent analysis stays null; an array is
replaced by its first element; a string is JSON parsed (failure is a
400 response); an object or null passes through; any other value is a
400 response via the thrown error caught in the same block. -/
def analysisStep (v : Option JVal) : Except Resp JVal :=
  match v with
  | none => .ok .null
  | some a0 =>
    if jsTruthy a0 = false then .ok .null
    else
      let a1 : Option JVal :=
        match a0 with
        | .arr xs => xs.head?
        | _ => some a0
      match a1 with
      | none => .error { status := 400, tag := "Invalid analysis JSON" }
      | some (.str s) =>
        (match jsonParse s with
         | some v' => .ok v'
         | none => .error { status := 400, tag := "Invalid analysis JSON" })
      | some .null => .ok .null
      | some (.obj kvs) => .ok (.obj kvs)
      | some (.arr xs) => .ok (.arr xs)
      | some _ => .error { status := 400, tag := "Invalid analysis JSON" }

/-- The reportToCreate object (src/unnamed/part_001 lines 231 to 239):
the validated data without its base64 image, the uploaded image URL
or null, the parsed analysis, and the three prices pushed through
Number(x) or-else null. -/
def mkReportToCreate (vd : ProductInput) (imageUrl : Option String)
    (analysis : JVal) : InsertReport :=
  { productName := vd.productName
    productCategory := vd.productCategory
    productImage := jsOrNull imageUrl
    oneSentencePitch := vd.oneSentencePitch
    keyFeatures := vd.keyFeatures
    materials := vd.materials
    variants := vd.variants
    targetAudience := vd.targetAudience
    competitors := vd.competitors
    salesChannels := vd.salesChannels
    analysis := analysis
    costOfGoods := numOrNull (some vd.costOfGoods)
    retailPrice := numOrNull (some vd.retailPrice)
    promoPrice := numOrNull vd.promoPrice }

/-- The save handler after the upload step (src/unnamed/part_001
lines 196 to 256): analysis parsing, validation, then the create call
whose success is a 201 and whose failure is a 500. -/
def saveAfterUpload (b7 : Body) (imageUrl : Option String)
    (calls : List Call) (createOk : Bool) : Resp × List Call :=
  match analysisStep b7.analysis with
  | .error r => (r, calls)
  | .ok parsedAnalysis =>
    match validate b7 with
    | .error issues =>
      ({ status := 400, tag := "Invalid input data", issues := issues }, calls)
    | .ok vd =>
      let payload := mkReportToCreate vd imageUrl parsedAnalysis
      if createOk then
        ({ status := 201, tag := "created" }, calls ++ [.createReport payload])
      else
        ({ status := 500, tag := "Failed to save report" },
          calls ++ [.createReport payload])

/-- The POST api reports save handler of src/unnamed/part_001
(lines 117 to 257): body munging, then image upload when a file is
present (upload failure is a 500 before anything else), then analysis
parsing, validation and the create call.  hasFile states whether multer
delivered a file; uploadRes and publicUrl abstract the storage backend;
createOk abstracts the database write. -/
def saveHandler (b : Body) (hasFile : Bool) (uploadRes publicUrl : Option String)
    (createOk : Bool) : Resp × List Call :=
  let b7 := mungedBody b
  if hasFile then
    match uploadReportImage uploadRes publicUrl with
    | .error _ =>
      ({ status := 500, tag := "Image upload failed" }, [.uploadImage])
    | .ok url => saveAfterUpload b7 (some url) [.uploadImage] createOk
  else
    saveAfterUpload b7 none [] createOk

/-- The POST api analyze handler of src/server/routes.ts (lines 103 to
124): validation, then the AI Gateway call whose failure is a 500. -/
def analyzeHandler (b : Body) (aiOk : Bool) : Resp × List Call :=
  match validate b with
  | .error issues =>
    ({ status := 400, tag := "Invalid input data", issues := issues }, [])
  | .ok _ =>
    if aiOk then ({ status := 200, tag := "analysis" }, [.aiAnalyze])
    else ({ status := 500, tag := "Failed to generate analysis" }, [.aiAnalyze])

/-- Character-wise global replacement of the double quote by the double
quote: the JavaScript source replaces each quote with an escape
sequence that itself denotes a bare quote, so the replacement map is
spelled out here exactly as the runtime executes it. -/
def replaceQuotes (s : String) : String :=
  String.mk (replaceList s.data)
where
  replaceList : List Char → List Char
  | [] => []
  | c :: cs => (if c = '"' then '"' else c) :: replaceList cs

/-- toPostgresArray (src/server/storage.ts lines 151 to 153): braces
around the comma join of the elements, each wrapped in double quotes
after the (identity) quote replacement. -/
def toPostgresArray (arr : List String) : String :=
  "\x7b" ++
    joinSep "," (arr.map (fun s => "\"" ++ replaceQuotes s ++ "\"")) ++
  "\x7d"

/-- The sales_channels arm of cleanPayload (src/server/storage.ts
lines 155 to 163): an array is encoded with toPostgresArray, a
non-empty string is encoded as a singleton, anything else as the empty
array literal. -/
def cleanChannelsField (v : Option JVal) : String :=
  match v with
  | some (.arr xs) =>
    toPostgresArray
      (xs.foldr (fun x acc => (match x with | .str s => s :: acc | _ => acc)) [])
  | some (.str s) => if s.length > 0 then toPostgresArray [s] else toPostgresArray []
  | _ => toPostgresArray []

/-- A stored report row of the persistence backend: id and an opaque
payload. -/
def DbRow : Type := Nat × JVal

/-- Modelled from the spec: the delete-by-filter call of the storage backend
(PostgREST semantics, spec section 4.4) removes the matching rows and
answers success regardless of whether any row matched.  The backend
itself is an external collaborator, not code under src. -/
def restDelete (db : List DbRow) (id : Nat) : List DbRow × Nat :=
  (db.filter (fun r => r.1 != id), 204)

/-- SupabaseStorage.deleteReport (src/server/storage.ts lines 260 to
268): issue the delete-by-filter call and throw only when the response
status is not ok (outside 200 to 299). -/
def deleteReport (db : List DbRow) (id : Nat) : Except String (List DbRow) :=
  let p := restDelete db id
  if 200 ≤ p.2 ∧ p.2 < 300 then .ok p.1
  else .error "Failed to delete report"

/-- Boolean success of an Except value. -/
def okB {ε α : Type} (e : Except ε α) : Bool :=
  match e with
  | .ok _ => true
  | .error _ => false

/-- A required string field as the code actually checks it: present, a
string, of length at least one (whitespace counts). -/
def reqStrOkB (v : Option JVal) : Bool :=
  match v with
  | some (.str s) => decide (1 ≤ s.length)
  | _ => false

/-- An optional string field as the code checks it: absent, or a
string. -/
def optStrOkB (v : Option JVal) : Bool :=
  match v with
  | none => true
  | some (.str _) => true
  | _ => false

/-- Whether a value is a string. -/
def isStrB : JVal → Bool
  | .str _ => true
  | _ => false

/-- The salesChannels field as the code checks it: an array of strings
with at least one element. -/
def chanOkB (v : Option JVal) : Bool :=
  match v with
  | some (.arr xs) => decide (1 ≤ xs.length) && xs.all isStrB
  | _ => false

/-- The exact acceptance condition of productInputSchema, field by
field. -/
def codeValidOk (b : Body) : Bool :=
  reqStrOkB b.productName && reqStrOkB b.productCategory &&
  optStrOkB b.productImage && reqStrOkB b.oneSentencePitch &&
  reqStrOkB b.keyFeatures && reqStrOkB b.costOfGoods &&
  reqStrOkB b.retailPrice && optStrOkB b.promoPrice &&
  reqStrOkB b.materials && optStrOkB b.variants &&
  reqStrOkB b.targetAudience && reqStrOkB b.competitors &&
  chanOkB b.salesChannels

/-- The thirteen field names of productInputSchema. -/
def schemaFieldNames : List String :=
  ["productName", "productCategory", "productImage", "oneSentencePitch",
   "keyFeatures", "costOfGoods", "retailPrice", "promoPrice", "materials",
   "variants", "targetAudience", "competitors", "salesChannels"]

/-- Modelled from the spec: a string that parses as a non-negative
decimal (spec section 3 invariant), for comparison against the validator of the code. -/
def specNonNegDecimal (s : String) : Bool :=
  (jsTrim s != "") &&
  (match jsNumberOfString s with
   | some (m, _) => decide (0 ≤ m)
   | none => false)

/-- Modelled from the spec: a required string field that is non-empty
after trimming. -/
def specTrimmedNonempty (v : Option JVal) : Bool :=
  match v with
  | some (.str s) => jsTrim s != ""
  | _ => false

/-- Modelled from the spec: a price field holding a string that parses
as a non-negative decimal. -/
def specNonNegField (v : Option JVal) : Bool :=
  match v with
  | some (.str s) => specNonNegDecimal s
  | _ => false

/-- Modelled from the spec: salesChannels contains at least one entry. -/
def specChannelsOk (v : Option JVal) : Bool :=
  match v with
  | some (.arr xs) => decide (1 ≤ xs.length)
  | _ => false

/-- Modelled from the spec: the acceptance condition claimed for the
validator (claim C2): required string fields non-empty after trimming,
at least one sales channel, price fields parse as non-negative
decimals. -/
def specValidOk (b : Body) : Bool :=
  specTrimmedNonempty b.productName && specTrimmedNonempty b.productCategory &&
  specTrimmedNonempty b.oneSentencePitch && specTrimmedNonempty b.keyFeatures &&
  specTrimmedNonempty b.materials && specTrimmedNonempty b.targetAudience &&
  specTrimmedNonempty b.competitors && specChannelsOk b.salesChannels &&
  specNonNegField b.costOfGoods && specNonNegField b.retailPrice

/-- A fully valid example submission. -/
def goodBody : Body :=
  { productName := some (.str "Widget")
    productCategory := some (.str "Tools")
    oneSentencePitch := some (.str "A handy widget")
    keyFeatures := some (.str "Durable")
    costOfGoods := some (.str "10")
    retailPrice := some (.str "25")
    materials := some (.str "Steel")
    targetAudience := some (.str "Makers")
    competitors := some (.str "Acme")
    salesChannels := some (.arr [.str "Online"]) }

/-- The validated record of goodBody. -/
def goodInput : ProductInput :=
  { productName := "Widget"
    productCategory := "Tools"
    productImage := none
    oneSentencePitch := "A handy widget"
    keyFeatures := "Durable"
    costOfGoods := "10"
    retailPrice := "25"
    promoPrice := none
    materials := "Steel"
    variants := none
    targetAudience := "Makers"
    competitors := "Acme"
    salesChannels := ["Online"] }

/-- goodBody with the product name missing. -/
def noNameBody : Body :=
  { goodBody with productName := none }

/-- Whether a value is an array or a string (the shapes the
salesChannels normalizer reshapes rather than discards). -/
def isArrOrStr : JVal → Bool
  | .arr _ => true
  | .str _ => true
  | _ => false

/-- goodBody with a marker-free two-line materials value and a
marker-carrying two-line targetAudience value. -/
def cleanupBody : Body :=
  { goodBody with
    materials := some (.str "Cotton blend\nWool")
    targetAudience := some (.str "DEBUG: pasted\nreal audience") }

/-- goodBody with a whitespace-only product name and a negative cost of
goods. -/
def spaceNameBody : Body :=
  { goodBody with
    productName := some (.str " ")
    costOfGoods := some (.str "-1") }

/-- goodBody with a promo price of zero. -/
def promoZeroBody : Body :=
  { goodBody with promoPrice := some (.str "0") }

/-- Splicing distributes over list append. -/
theorem normalizeChannelsArray_append (xs ys : List JVal) :
    normalizeChannelsArray (xs ++ ys) =
      normalizeChannelsArray xs ++ normalizeChannelsArray ys := by
  induction xs with
  | nil => simp [normalizeChannelsArray]
  | cons c cs ih => simp [normalizeChannelsArray, ih, List.append_assoc]

/-- C3: salesChannels normalization JSON-decodes each string element of
an array and splices decoded arrays in place (one level), keeps
elements whose decode fails as literal strings, and for a single
string tries a whole-string JSON decode first, falling back to comma
splitting with trim and drop-empty; the array of Online and the encoded
pair Retail, Direct flattens to the three plain strings. -/
theorem C3_salesChannels_normalization :
    (∀ (pre post : List JVal) (s : String) (ys : List JVal),
        jsonParse s = some (.arr ys) →
        normalizeChannelsArray (pre ++ .str s :: post) =
          normalizeChannelsArray pre ++ ys ++ normalizeChannelsArray post) ∧
    (∀ (pre post : List JVal) (s : String),
        jsonParse s = none →
        normalizeChannelsArray (pre ++ .str s :: post) =
          normalizeChannelsArray pre ++ .str s :: normalizeChannelsArray post) ∧
    (∀ (s : String) (v : JVal), jsonParse s = some v →
        preprocessChannels (some (.str s)) = v) ∧
    (∀ s : String, jsonParse s = none →
        preprocessChannels (some (.str s)) = .arr ((commaSplitClean s).map .str)) ∧
    preprocessChannels (some (.arr [.str "Online", .str "[\"Retail\",\"Direct\"]"])) =
      .arr [.str "Online", .str "Retail", .str "Direct"] := by
  refine ⟨?_, ?_, ?_, ?_, rfl⟩
  · intro pre post s ys h
    have : normalizeChannelsArray (.str s :: post) =
        ys ++ normalizeChannelsArray post := by
      simp [normalizeChannelsArray, flatChannel, h]
    rw [normalizeChannelsArray_append, this, List.append_assoc]
  · intro pre post s h
    have : normalizeChannelsArray (.str s :: post) =
        .str s :: normalizeChannelsArray post := by
      simp [normalizeChannelsArray, flatChannel, h]
    rw [normalizeChannelsArray_append, this]
  · intro s v h
    simp [preprocessChannels, h]
  · intro s h
    simp [preprocessChannels, h]

/-- C3 witness: the splice rule applied at the encoded Retail, Direct
element, and the comma fallback applied at a comma string. -/
theorem C3_witness :
    normalizeChannelsArray ([.str "Online"] ++ .str "[\"Retail\",\"Direct\"]" :: []) =
      normalizeChannelsArray [.str "Online"] ++
        [.str "Retail", .str "Direct"] ++ normalizeChannelsArray [] ∧
    preprocessChannels (some (.str "Online, Retail , ")) =
      .arr [.str "Online", .str "Retail"] := by
  constructor
  · exact C3_salesChannels_normalization.1 [.str "Online"] []
      "[\"Retail\",\"Direct\"]" [.str "Retail", .str "Direct"] rfl
  · exact (C3_salesChannels_normalization.2.2.2.1 "Online, Retail , " rfl).trans rfl

/-- C6 counterexample: the array holding the single number 42 cannot
be coerced into any non-empty sequence of strings, yet normalization
yields that same array, not the empty sequence, and the validator then
raises the invalid-type issue rather than the at-least-one-channel
error; likewise the string null JSON-decodes, so normalization yields
the null value (no sequence at all) and the validator raises the
expected-array issue — so the claim as stated is false. -/
theorem C6_counterexample :
    preprocessChannels (some (.arr [.num 42 0])) = .arr [.num 42 0] ∧
    (JVal.arr [.num 42 0]) ≠ (.arr []) ∧
    checkChannels (some (.arr [.num 42 0])) = [("salesChannels", "Expected string")] ∧
    preprocessChannels (some (.str "null")) = .null ∧
    (JVal.null) ≠ (.arr []) ∧
    checkChannels (some .null) = [("salesChannels", "Expected array")] := by
  refine ⟨rfl, by simp, rfl, rfl, by simp, rfl⟩

/-- C6 amended: the salesChannels normalizer never rejects (it is a
total function by construction, every JSON decode failure being
caught); a value that is neither an array nor a string, and a string
that neither JSON-decodes nor yields any non-empty trimmed comma
piece, normalize to the empty sequence, on which the validator raises
the at-least-one-channel error; but an array keeps its non-string
elements and a string that JSON-decodes to a non-array becomes that
decoded value, and on those shapes the validator raises an
invalid-type error instead. -/
theorem C6_normalizer_empty_fallback :
    (∀ v : Option JVal, (∀ x, v = some x → isArrOrStr x = false) →
        preprocessChannels v = .arr []) ∧
    (∀ s : String, jsonParse s = none → commaSplitClean s = [] →
        preprocessChannels (some (.str s)) = .arr []) ∧
    (∀ (pre post : List JVal) (x : JVal), isStrB x = false →
        preprocessChannels (some (.arr (pre ++ x :: post))) =
          .arr (normalizeChannelsArray pre ++ x :: normalizeChannelsArray post)) ∧
    (∀ (s : String) (v : JVal), jsonParse s = some v → isArrOrStr v = false →
        preprocessChannels (some (.str s)) = v) ∧
    checkChannels (some (.arr [])) =
      [("salesChannels", "At least one sales channel is required")] ∧
    checkChannels (some .null) = [("salesChannels", "Expected array")] ∧
    checkChannels (some (.arr [.num 42 0])) =
      [("salesChannels", "Expected string")] := by
  refine ⟨?_, ?_, ?_, ?_, rfl, rfl, rfl⟩
  · intro v h
    match v with
    | none => rfl
    | some .null => rfl
    | some (.bool b) => rfl
    | some (.num m e) => rfl
    | some (.obj kvs) => rfl
    | some (.str s) => exact absurd (h (.str s) rfl) (by simp [isArrOrStr])
    | some (.arr xs) => exact absurd (h (.arr xs) rfl) (by simp [isArrOrStr])
  · intro s h1 h2
    simp [preprocessChannels, h1, h2]
  · intro pre post x hx
    have hflat : flatChannel x = [x] := by
      match x with
      | .str s => simp [isStrB] at hx
      | .null => rfl
      | .bool b => rfl
      | .num m e => rfl
      | .arr ys => rfl
      | .obj kvs => rfl
    have : normalizeChannelsArray (pre ++ x :: post) =
        normalizeChannelsArray pre ++ x :: normalizeChannelsArray post := by
      rw [normalizeChannelsArray_append]
      simp [normalizeChannelsArray, hflat]
    simp [preprocessChannels, this]
  · intro s v h _
    simp [preprocessChannels, h]

/-- C6 witness: the empty-sequence fallback applied at a numeric value
and at a comma-only string, the element-keeping rule applied at the
array holding the number 42, and the decode-pass-through rule applied
at the string null. -/
theorem C6_witness :
    preprocessChannels (some (.num 42 0)) = .arr [] ∧
    preprocessChannels (some (.str " , ")) = .arr [] ∧
    preprocessChannels (some (.arr [.num 42 0])) = .arr [.num 42 0] ∧
    preprocessChannels (some (.str "null")) = .null := by
  refine ⟨?_, ?_, ?_, ?_⟩
  · exact C6_normalizer_empty_fallback.1 (some (.num 42 0))
      (fun x h => by cases h; rfl)
  · exact C6_normalizer_empty_fallback.2.1 " , " rfl rfl
  · exact (C6_normalizer_empty_fallback.2.2.1 [] [] (.num 42 0) rfl).trans rfl
  · exact C6_normalizer_empty_fallback.2.2.2.1 "null" .null rfl rfl

/-- C7: on an array of plain strings (no element JSON-decodes to an
array), the salesChannels normalization is the identity, hence
normalizing an already-normalized array of plain strings yields the
same array. -/
theorem C7_normalization_idempotent (xs : List String)
    (h : ∀ s ∈ xs, ∀ ys, jsonParse s ≠ some (.arr ys)) :
    normalizeChannelsArray (xs.map .str) = xs.map .str := by
  induction xs with
  | nil => rfl
  | cons s rest ih =>
    have hs : flatChannel (.str s) = [.str s] := by
      cases hp : jsonParse s with
      | none => simp [flatChannel, hp]
      | some v =>
        cases v with
        | arr ys => exact absurd hp (h s (List.mem_cons_self s rest) ys)
        | null => simp [flatChannel, hp]
        | bool b => simp [flatChannel, hp]
        | num m e => simp [flatChannel, hp]
        | str t => simp [flatChannel, hp]
        | obj kvs => simp [flatChannel, hp]
    have ih' := ih (fun t ht ys => h t (List.mem_cons_of_mem s ht) ys)
    simp [List.map_cons, normalizeChannelsArray, hs, ih']

/-- C7 witness: the plain channel names Online and Retail are fixed by
the normalization. -/
theorem C7_witness :
    normalizeChannelsArray (["Online", "Retail"].map .str) =
      ["Online", "Retail"].map .str :=
  C7_normalization_idempotent ["Online", "Retail"] (by
    intro s hs ys hparse
    rcases List.mem_cons.mp hs with rfl | hs
    · exact Option.noConfusion
        ((show jsonParse "Online" = none from rfl).symm.trans hparse)
    · rcases List.mem_singleton.mp hs with rfl
      exact Option.noConfusion
        ((show jsonParse "Retail" = none from rfl).symm.trans hparse))

/-- C9: deleteReport always completes with success, removing exactly
the rows matching the id; in particular deleting an id with no matching
row succeeds and leaves the store unchanged (no NotFoundError at this
layer). -/
theorem C9_delete_idempotent (db : List DbRow) (id : Nat) :
    deleteReport db id = .ok (db.filter (fun r => r.1 != id)) ∧
    ((∀ r ∈ db, r.1 ≠ id) → deleteReport db id = .ok db) := by
  constructor
  · simp [deleteReport, restDelete]
  · intro h
    have : db.filter (fun r => r.1 != id) = db :=
      List.filter_eq_self.mpr (fun r hr => by simpa using h r hr)
    simp [deleteReport, restDelete, this]

/-- C9 witness: deleting the absent id 2 from a one-row store succeeds
and leaves the store unchanged. -/
theorem C9_witness : deleteReport [(1, JVal.null)] 2 = .ok [(1, JVal.null)] :=
  (C9_delete_idempotent [(1, JVal.null)] 2).2 (by
    intro r hr
    rcases List.mem_singleton.mp hr with rfl
    decide)

/-- The quote replacement of toPostgresArray is the identity map. -/
theorem replaceQuotes_id (s : String) : replaceQuotes s = s := by
  have h : ∀ cs : List Char, replaceQuotes.replaceList cs = cs := by
    intro cs
    induction cs with
    | nil => rfl
    | cons c rest ih =>
      by_cases hc : c = '"'
      · simp [replaceQuotes.replaceList, hc, ih]
      · simp [replaceQuotes.replaceList, hc, ih]
  cases s with
  | mk data => simp [replaceQuotes, h]

/-- C10: the salesChannels wire encoding is an opening brace, the
elements each wrapped in unescaped double quotes and joined by commas,
and a closing brace (the escaping replace is an identity); it is used
verbatim by the cleanPayload arm for arrays of strings, and it is not
injective: a one-element list whose element contains the sequence
quote-comma-quote encodes like the corresponding two-element list. -/
theorem C10_wire_encoding_not_injective :
    (∀ xs : List String,
        toPostgresArray xs =
          "\x7b" ++ joinSep "," (xs.map (fun s => "\"" ++ s ++ "\"")) ++ "\x7d") ∧
    (∀ xs : List String,
        cleanChannelsField (some (.arr (xs.map .str))) = toPostgresArray xs) ∧
    toPostgresArray ["a\",\"b"] = toPostgresArray ["a", "b"] ∧
    ("a\",\"b" :: ([] : List String)) ≠ ["a", "b"] := by
  refine ⟨?_, ?_, rfl, by decide⟩
  · intro xs
    simp [toPostgresArray, replaceQuotes_id]
  · intro xs
    have h : ∀ ys : List String,
        (List.map JVal.str ys).foldr
          (fun x acc => (match x with | .str s => s :: acc | _ => acc)) [] = ys := by
      intro ys
      induction ys with
      | nil => rfl
      | cons y rest ih => simp [ih]
    simp [cleanChannelsField, h]

/-- C4 counterexample: a marker-free two-line materials value is
truncated to its first line although it contains no debug marker
token, while a targetAudience value whose first line carries the DEBUG
marker is left entirely unchanged — the opposite of the claimed rule. -/
theorem C4_counterexample :
    (cleanBodyFields cleanupBody).materials = some (.str "Cotton blend") ∧
    containsStr "Cotton blend\nWool" "DEBUG" = false ∧
    containsStr "Cotton blend\nWool" "AM [express]" = false ∧
    (cleanBodyFields cleanupBody).targetAudience =
      some (.str "DEBUG: pasted\nreal audience") ∧
    containsStr "DEBUG: pasted\nreal audience" "DEBUG" = true :=
  ⟨rfl, rfl, rfl, rfl, rfl⟩

/-- C4 amended: the cleanup touches exactly the four allow-listed
fields; every non-empty string value among them is replaced by the
trimmed first line of the value, unless that line is empty or contains
a debug marker token, in which case the value (markers included) is
kept whole; non-string values and all other fields are unchanged. -/
theorem C4_cleanup_rule (b : Body) :
    ((cleanBodyFields b).materials = cleanTextField b.materials ∧
     (cleanBodyFields b).variants = cleanTextField b.variants ∧
     (cleanBodyFields b).targetAudience = cleanTextField b.targetAudience ∧
     (cleanBodyFields b).competitors = cleanTextField b.competitors) ∧
    ((cleanBodyFields b).productName = b.productName ∧
     (cleanBodyFields b).productCategory = b.productCategory ∧
     (cleanBodyFields b).productImage = b.productImage ∧
     (cleanBodyFields b).oneSentencePitch = b.oneSentencePitch ∧
     (cleanBodyFields b).keyFeatures = b.keyFeatures ∧
     (cleanBodyFields b).costOfGoods = b.costOfGoods ∧
     (cleanBodyFields b).retailPrice = b.retailPrice ∧
     (cleanBodyFields b).promoPrice = b.promoPrice ∧
     (cleanBodyFields b).salesChannels = b.salesChannels ∧
     (cleanBodyFields b).analysis = b.analysis ∧
     (cleanBodyFields b).productData = b.productData) ∧
    (∀ s : String,
        firstLineTrim s ≠ "" →
        containsStr (firstLineTrim s) "AM [express]" = false →
        containsStr (firstLineTrim s) "DEBUG" = false →
        s ≠ "" →
        cleanTextField (some (.str s)) = some (.str (firstLineTrim s))) ∧
    (∀ s : String,
        (firstLineTrim s = "" ∨ containsStr (firstLineTrim s) "AM [express]" = true ∨
         containsStr (firstLineTrim s) "DEBUG" = true) →
        cleanTextField (some (.str s)) = some (.str s)) ∧
    (∀ v : Option JVal, (∀ s, v ≠ some (.str s)) → cleanTextField v = v) := by
  refine ⟨⟨rfl, rfl, rfl, rfl⟩,
    ⟨rfl, rfl, rfl, rfl, rfl, rfl, rfl, rfl, rfl, rfl, rfl⟩, ?_, ?_, ?_⟩
  · intro s h1 h2 h3 h4
    simp [cleanTextField, h1, h2, h3, h4]
  · intro s h
    by_cases h0 : s = ""
    · simp [cleanTextField, h0]
    · rcases h with h | h | h
      · simp [cleanTextField, h0, h]
      · simp [cleanTextField, h0, h]
      · simp [cleanTextField, h0, h]
  · intro v h
    match v with
    | none => rfl
    | some .null => rfl
    | some (.bool b) => rfl
    | some (.num m e) => rfl
    | some (.arr xs) => rfl
    | some (.obj kvs) => rfl
    | some (.str s) => exact absurd rfl (h s)

/-- C4 witness: the truncation rule applied at a marker-free two-line
value, the keep-whole rule applied at a marker-carrying value, and the
no-op rule applied at a non-string value. -/
theorem C4_witness :
    cleanTextField (some (.str "Cotton blend\nWool")) = some (.str "Cotton blend") ∧
    cleanTextField (some (.str "DEBUG: pasted\nreal audience")) =
      some (.str "DEBUG: pasted\nreal audience") ∧
    cleanTextField (some (.arr [])) = some (.arr []) := by
  refine ⟨?_, ?_, ?_⟩
  · exact ((C4_cleanup_rule goodBody).2.2.1 "Cotton blend\nWool"
      (by decide) rfl rfl (by decide)).trans rfl
  · exact (C4_cleanup_rule goodBody).2.2.2.1 "DEBUG: pasted\nreal audience"
      (Or.inr (Or.inr rfl))
  · exact (C4_cleanup_rule goodBody).2.2.2.2 (some (.arr []))
      (fun s h => by cases h)

/-- A required string check passes exactly on a present string of
length at least one. -/
theorem checkRequiredString_eq_nil (n m : String) (v : Option JVal) :
    checkRequiredString n m v = [] ↔ reqStrOkB v = true := by
  match v with
  | none => simp [checkRequiredString, reqStrOkB]
  | some (.str s) =>
    by_cases h : 1 ≤ s.length
    · simp [checkRequiredString, reqStrOkB, h]
    · simp [checkRequiredString, reqStrOkB, h]
  | some .null => simp [checkRequiredString, reqStrOkB]
  | some (.bool b) => simp [checkRequiredString, reqStrOkB]
  | some (.num x y) => simp [checkRequiredString, reqStrOkB]
  | some (.arr xs) => simp [checkRequiredString, reqStrOkB]
  | some (.obj kvs) => simp [checkRequiredString, reqStrOkB]

/-- An optional string check passes exactly on absence or a string. -/
theorem checkOptionalString_eq_nil (n : String) (v : Option JVal) :
    checkOptionalString n v = [] ↔ optStrOkB v = true := by
  match v with
  | none => simp [checkOptionalString, optStrOkB]
  | some (.str s) => simp [checkOptionalString, optStrOkB]
  | some .null => simp [checkOptionalString, optStrOkB]
  | some (.bool b) => simp [checkOptionalString, optStrOkB]
  | some (.num x y) => simp [checkOptionalString, optStrOkB]
  | some (.arr xs) => simp [checkOptionalString, optStrOkB]
  | some (.obj kvs) => simp [checkOptionalString, optStrOkB]

/-- The element issues vanish exactly when every element is a string. -/
theorem channelElemIssues_eq_nil (xs : List JVal) :
    channelElemIssues xs = [] ↔ xs.all isStrB = true := by
  induction xs with
  | nil => simp [channelElemIssues]
  | cons x rest ih =>
    match x with
    | .str s => simpa [channelElemIssues, isStrB] using ih
    | .null => simp [channelElemIssues, isStrB]
    | .bool b => simp [channelElemIssues, isStrB]
    | .num m e => simp [channelElemIssues, isStrB]
    | .arr ys => simp [channelElemIssues, isStrB]
    | .obj kvs => simp [channelElemIssues, isStrB]

/-- The salesChannels check passes exactly on a non-empty array of
strings. -/
theorem checkChannels_eq_nil (v : Option JVal) :
    checkChannels v = [] ↔ chanOkB v = true := by
  match v with
  | none => simp [checkChannels, chanOkB]
  | some (.arr xs) =>
    by_cases h : 1 ≤ xs.length
    · simp [checkChannels, chanOkB, h, channelElemIssues_eq_nil]
    · simp [checkChannels, chanOkB, h]
  | some .null => simp [checkChannels, chanOkB]
  | some (.bool b) => simp [checkChannels, chanOkB]
  | some (.num x y) => simp [checkChannels, chanOkB]
  | some (.str s) => simp [checkChannels, chanOkB]
  | some (.obj kvs) => simp [checkChannels, chanOkB]

/-- The issue list is empty exactly when every field check passes. -/
theorem validationIssues_eq_nil (b : Body) :
    validationIssues b = [] ↔ codeValidOk b = true := by
  simp [validationIssues, codeValidOk, List.append_eq_nil,
    checkRequiredString_eq_nil, checkOptionalString_eq_nil,
    checkChannels_eq_nil, Bool.and_eq_true, and_assoc]

/-- Validation succeeds exactly when every field check passes. -/
theorem validate_ok_iff (b : Body) :
    okB (validate b) = true ↔ codeValidOk b = true := by
  rw [← validationIssues_eq_nil]
  unfold validate okB
  cases h : validationIssues b with
  | nil => simp
  | cons p rest => simp

/-- A validation failure carries exactly the non-empty issue list. -/
theorem validate_error_facts (b : Body) (issues : List (String × String))
    (h : validate b = .error issues) :
    issues = validationIssues b ∧ issues ≠ [] := by
  unfold validate at h
  cases hv : validationIssues b with
  | nil => rw [hv] at h; cases h
  | cons p rest =>
    rw [hv] at h
    cases h
    simp

/-- Issues of a required string check name its field. -/
theorem mem_checkRequiredString_name (n m : String) (v : Option JVal)
    (p : String × String) (h : p ∈ checkRequiredString n m v) : p.1 = n := by
  match v with
  | none => simp [checkRequiredString] at h; simp [h]
  | some (.str s) =>
    by_cases h1 : 1 ≤ s.length
    · simp [checkRequiredString, h1] at h
    · simp [checkRequiredString, h1] at h; simp [h]
  | some .null => simp [checkRequiredString] at h; simp [h]
  | some (.bool b) => simp [checkRequiredString] at h; simp [h]
  | some (.num x y) => simp [checkRequiredString] at h; simp [h]
  | some (.arr xs) => simp [checkRequiredString] at h; simp [h]
  | some (.obj kvs) => simp [checkRequiredString] at h; simp [h]

/-- Issues of an optional string check name its field. -/
theorem mem_checkOptionalString_name (n : String) (v : Option JVal)
    (p : String × String) (h : p ∈ checkOptionalString n v) : p.1 = n := by
  match v with
  | none => simp [checkOptionalString] at h
  | some (.str s) => simp [checkOptionalString] at h
  | some .null => simp [checkOptionalString] at h; simp [h]
  | some (.bool b) => simp [checkOptionalString] at h; simp [h]
  | some (.num x y) => simp [checkOptionalString] at h; simp [h]
  | some (.arr xs) => simp [checkOptionalString] at h; simp [h]
  | some (.obj kvs) => simp [checkOptionalString] at h; simp [h]

/-- Element issues of the salesChannels check name salesChannels. -/
theorem mem_channelElemIssues_name (xs : List JVal) (p : String × String)
    (h : p ∈ channelElemIssues xs) : p.1 = "salesChannels" := by
  induction xs with
  | nil => simp [channelElemIssues] at h
  | cons x rest ih =>
    match x with
    | .str s => exact ih (by simpa [channelElemIssues] using h)
    | .null =>
      rcases List.mem_cons.mp (by simpa [channelElemIssues] using h) with rfl | hm
      · rfl
      · exact ih hm
    | .bool b =>
      rcases List.mem_cons.mp (by simpa [channelElemIssues] using h) with rfl | hm
      · rfl
      · exact ih hm
    | .num m e =>
      rcases List.mem_cons.mp (by simpa [channelElemIssues] using h) with rfl | hm
      · rfl
      · exact ih hm
    | .arr ys =>
      rcases List.mem_cons.mp (by simpa [channelElemIssues] using h) with rfl | hm
      · rfl
      · exact ih hm
    | .obj kvs =>
      rcases List.mem_cons.mp (by simpa [channelElemIssues] using h) with rfl | hm
      · rfl
      · exact ih hm

/-- Issues of the salesChannels check name salesChannels. -/
theorem mem_checkChannels_name (v : Option JVal) (p : String × String)
    (h : p ∈ checkChannels v) : p.1 = "salesChannels" := by
  match v with
  | none => simp [checkChannels] at h; simp [h]
  | some (.arr xs) =>
    by_cases h1 : 1 ≤ xs.length
    · exact mem_channelElemIssues_name xs p (by simpa [checkChannels, h1] using h)
    · rcases List.mem_cons.mp (by simpa [checkChannels, h1] using h) with rfl | hm
      · rfl
      · exact mem_channelElemIssues_name xs p hm
  | some .null => simp [checkChannels] at h; simp [h]
  | some (.bool b) => simp [checkChannels] at h; simp [h]
  | some (.num x y) => simp [checkChannels] at h; simp [h]
  | some (.str s) => simp [checkChannels] at h; simp [h]
  | some (.obj kvs) => simp [checkChannels] at h; simp [h]

/-- Every issue of the validator names one of the schema fields. -/
theorem mem_validationIssues_name (b : Body) (p : String × String)
    (h : p ∈ validationIssues b) : p.1 ∈ schemaFieldNames := by
  unfold validationIssues at h
  simp only [List.mem_append] at h
  rcases h with ((((((((((((h | h) | h) | h) | h) | h) | h) | h) | h) | h) | h) | h) | h)
  all_goals first
    | (rw [mem_checkRequiredString_name _ _ _ _ h]; simp [schemaFieldNames])
    | (rw [mem_checkOptionalString_name _ _ _ h]; simp [schemaFieldNames])
    | (rw [mem_checkChannels_name _ _ h]; simp [schemaFieldNames])

/-- C2 amended: validation succeeds exactly when each required field
(productName, productCategory, oneSentencePitch, keyFeatures,
costOfGoods, retailPrice, materials, targetAudience, competitors) is a
string of length at least one with no trimming and no numeric check,
each optional field is absent or a string, and salesChannels is an
array of strings with at least one element; every failure is a
non-empty list of field and reason pairs naming schema fields. -/
theorem C2_validator_characterization (b : Body) :
    (okB (validate b) = true ↔ codeValidOk b = true) ∧
    (∀ issues, validate b = .error issues →
        issues ≠ [] ∧ ∀ p ∈ issues, p.1 ∈ schemaFieldNames) := by
  constructor
  · exact validate_ok_iff b
  · intro issues h
    obtain ⟨heq, hne⟩ := validate_error_facts b issues h
    exact ⟨hne, fun p hp => mem_validationIssues_name b p (heq ▸ hp)⟩

/-- C2 counterexample: a submission whose product name is a single
space and whose cost of goods is the string minus one passes
validation, although the product name is empty after trimming and the
cost does not parse as a non-negative decimal — so acceptance is not
the claimed condition. -/
theorem C2_counterexample :
    okB (validate spaceNameBody) = true ∧ specValidOk spaceNameBody = false :=
  ⟨rfl, rfl⟩

/-- C2 witness: the characterization applied at a fully valid body and
at a body missing productName, whose single issue names productName. -/
theorem C2_witness :
    (codeValidOk goodBody = true ∧ okB (validate goodBody) = true) ∧
    ([("productName", "Required")] ≠ ([] : List (String × String)) ∧
      ∀ p ∈ [("productName", "Required")], p.1 ∈ schemaFieldNames) :=
  ⟨⟨rfl, (C2_validator_characterization goodBody).1.mpr rfl⟩,
   (C2_validator_characterization noNameBody).2 [("productName", "Required")] rfl⟩

/-- C1 amended: whenever validation of the munged body fails, both the
save route and the analyze route answer a 400 carrying the non-empty
field-level issue list, and make no AI Gateway call and no report
create call; the save route makes no upload call for a file-less
request, but when a file is present its upload precedes validation, so
exactly the upload call has already happened. -/
theorem C1_validation_failure_stops_calls :
    (∀ (b : Body) (hasFile : Bool) (uploadRes publicUrl : Option String)
        (createOk : Bool) (url : String) (pa : JVal)
        (issues : List (String × String)),
        (hasFile = true → uploadReportImage uploadRes publicUrl = .ok url) →
        analysisStep (mungedBody b).analysis = .ok pa →
        validate (mungedBody b) = .error issues →
        saveHandler b hasFile uploadRes publicUrl createOk =
          ({ status := 400, tag := "Invalid input data", issues := issues },
           if hasFile then [Call.uploadImage] else []) ∧
        issues ≠ [] ∧ (∀ p ∈ issues, p.1 ∈ schemaFieldNames)) ∧
    (∀ (b : Body) (aiOk : Bool) (issues : List (String × String)),
        validate b = .error issues →
        analyzeHandler b aiOk =
          ({ status := 400, tag := "Invalid input data", issues := issues }, []) ∧
        issues ≠ [] ∧ (∀ p ∈ issues, p.1 ∈ schemaFieldNames)) := by
  constructor
  · intro b hasFile uploadRes publicUrl createOk url pa issues hUp hAn hVal
    have hIss := (C2_validator_characterization (mungedBody b)).2 issues hVal
    refine ⟨?_, hIss⟩
    cases hasFile with
    | true =>
      simp only [saveHandler, hUp rfl, saveAfterUpload, hAn, hVal, if_true]
    | false =>
      simp only [saveHandler, saveAfterUpload, hAn, hVal, Bool.false_eq_true,
        if_false]
  · intro b aiOk issues hVal
    have hIss := (C2_validator_characterization b).2 issues hVal
    exact ⟨by simp only [analyzeHandler, hVal], hIss⟩

/-- C1 counterexample: a save request with an image whose body is
missing productName fails validation with a 400 naming productName,
yet the trace already contains the image upload call — a Persistence
Adapter call made before validation succeeded, contradicting the claim
as stated. -/
theorem C1_counterexample :
    saveHandler noNameBody true (some "img.png") (some "http://host/img.png") true =
      ({ status := 400, tag := "Invalid input data",
         issues := [("productName", "Required")] },
       [Call.uploadImage]) :=
  rfl

/-- C1 witness: the amended theorem applied at a file-less save request
and at an analyze request, both missing productName. -/
theorem C1_witness :
    (saveHandler noNameBody false none none true =
      ({ status := 400, tag := "Invalid input data",
         issues := [("productName", "Required")] }, []) ∧
     [("productName", "Required")] ≠ ([] : List (String × String))) ∧
    analyzeHandler noNameBody true =
      ({ status := 400, tag := "Invalid input data",
         issues := [("productName", "Required")] }, []) := by
  refine ⟨⟨?_, ?_⟩, ?_⟩
  · exact (C1_validation_failure_stops_calls.1 noNameBody false none none true
      "" .null [("productName", "Required")]
      (fun h => by cases h) rfl rfl).1
  · exact (C1_validation_failure_stops_calls.1 noNameBody false none none true
      "" .null [("productName", "Required")]
      (fun h => by cases h) rfl rfl).2.1
  · exact (C1_validation_failure_stops_calls.2 noNameBody true
      [("productName", "Required")] rfl).1

/-- A successful upload never returns the empty URL (the falsy check of
uploadReportImage rejects it). -/
theorem uploadReportImage_ok_ne_empty (a b : Option String) (url : String)
    (h : uploadReportImage a b = .ok url) : url ≠ "" := by
  match a, b with
  | none, _ => cases h
  | some p, none => cases h
  | some p, some u =>
    by_cases hu : u = ""
    · simp [uploadReportImage, hu] at h
    · simp [uploadReportImage, hu] at h
      intro h0
      exact hu (h ▸ h0)

/-- C8: on a save request with an image, a failed upload yields a 500
with no create call at all, and a successful upload puts the upload
call strictly before the create call, whose payload carries exactly
the URL the upload returned as productImage — never the original
bytes or data URI. -/
theorem C8_upload_before_create (b : Body) (uploadRes publicUrl : Option String)
    (createOk : Bool) :
    (∀ e, uploadReportImage uploadRes publicUrl = .error e →
        saveHandler b true uploadRes publicUrl createOk =
          ({ status := 500, tag := "Image upload failed" }, [Call.uploadImage])) ∧
    (∀ url pa vd, uploadReportImage uploadRes publicUrl = .ok url →
        analysisStep (mungedBody b).analysis = .ok pa →
        validate (mungedBody b) = .ok vd →
        (saveHandler b true uploadRes publicUrl createOk).2 =
          [Call.uploadImage,
           Call.createReport (mkReportToCreate vd (some url) pa)] ∧
        (mkReportToCreate vd (some url) pa).productImage = some url) := by
  constructor
  · intro e hUp
    simp [saveHandler, hUp]
  · intro url pa vd hUp hAn hVal
    have hne := uploadReportImage_ok_ne_empty uploadRes publicUrl url hUp
    constructor
    · cases createOk with
      | true => simp only [saveHandler, hUp, saveAfterUpload, hAn, hVal]; rfl
      | false => simp only [saveHandler, hUp, saveAfterUpload, hAn, hVal]; rfl
    · simp [mkReportToCreate, jsOrNull, hne]

/-- C8 witness: the success rule applied at a valid body with a
successful upload, and the failure rule applied at a failed upload. -/
theorem C8_witness :
    ((saveHandler goodBody true (some "p.png") (some "http://h/p.png") true).2 =
      [Call.uploadImage,
       Call.createReport (mkReportToCreate goodInput (some "http://h/p.png") .null)] ∧
     (mkReportToCreate goodInput (some "http://h/p.png") .null).productImage =
       some "http://h/p.png") ∧
    saveHandler goodBody true none none true =
      ({ status := 500, tag := "Image upload failed" }, [Call.uploadImage]) := by
  constructor
  · exact (C8_upload_before_create goodBody (some "p.png") (some "http://h/p.png")
      true).2 "http://h/p.png" .null goodInput rfl rfl rfl
  · exact (C8_upload_before_create goodBody none none true).1
      "Failed to upload image" rfl

/-- C5: evaluating the save pipeline at a submission whose promoPrice
is the string zero produces exactly the same persisted record as the
same submission with promoPrice omitted — the zero-or-null conversion
collapses zero to null, so the value zero is not kept distinct from
not-provided, contradicting the documented intent. -/
theorem C5_zero_price_persisted_as_null :
    (saveHandler promoZeroBody false none none true).2 =
      (saveHandler goodBody false none none true).2 ∧
    (saveHandler promoZeroBody false none none true).2 =
      [Call.createReport (mkReportToCreate goodInput none .null)] ∧
    (mkReportToCreate goodInput none .null).promoPrice = none ∧
    promoZeroBody.promoPrice = some (.str "0") ∧
    goodBody.promoPrice = none ∧
    jsNumberOfString "0" = some (0, 0) :=
  ⟨rfl, rfl, rfl, rfl, rfl, rfl⟩
